import Mathlib

/-!
Verification of the golf-app round-scoring frontend (React/TypeScript) against
its natural-language specification.  The TypeScript source is shallowly
embedded: JS records `Record<string, T | null>` become association lists
`List (String × Option T)` with a lookup that returns `none` for a missing or
null entry (the `?.[k] ?? null` idiom); JS numbers that only ever hold
integers become `Int`; nullable values become `Option`; component state
mutations become explicit state-passing functions; HTTP calls become an
explicit trace of requests.
-/

namespace GolfApp

/-- Lookup in the model of a JS `Record<string, T | null>`: `m?.[k] ?? null`.
A missing key and a stored null both yield `none`. -/
def jsGet {α : Type} (m : List (String × Option α)) (k : String) : Option α :=
  match m.find? (fun e => e.1 = k) with
  | some e => e.2
  | none => none

/-- One entry of `Round.holes` (TS type `RoundHole` plus the stats fields used
by `RoundScorecard.tsx`): hole number, par, and per-player records for
strokes, putts, fairway result and green-in-regulation result. -/
structure RoundHole where
  number : Int
  par : Int
  strokes : List (String × Option Int)
  putts : List (String × Option Int)
  fairway : List (String × Option String)
  gir : List (String × Option String)
deriving DecidableEq, Repr

/-- The fields of the TS `Round` payload that the scorecard logic reads. -/
structure RoundState where
  id : Int
  ownerId : String
  playerIds : List String
  completedAt : Option String
  tournamentId : Option Int
  tournamentPausedAt : Option String
  tournamentCompletedAt : Option String
  holes : List RoundHole
  statsEnabled : Bool
deriving DecidableEq, Repr

/-- RoundScorecard.tsx: `front9 = holes.filter(h => h.number <= 9)`. -/
def front9 (holes : List RoundHole) : List RoundHole :=
  holes.filter (fun h => h.number ≤ 9)

/-- RoundScorecard.tsx: `back9 = holes.filter(h => h.number >= 10)`. -/
def back9 (holes : List RoundHole) : List RoundHole :=
  holes.filter (fun h => 10 ≤ h.number)

/-- Loop body of `sumStrokes` in RoundScorecard.tsx, carrying the running
`total` and the `any` flag. -/
def sumStrokesGo (pid : String) (total : Int) (a : Bool) :
    List RoundHole → Option Int
  | [] => if a then some total else none
  | h :: rest =>
    match jsGet h.strokes pid with
    | some v => sumStrokesGo pid (total + v) true rest
    | none => sumStrokesGo pid total a rest

/-- RoundScorecard.tsx `sumStrokes(pid, hs)`: sums the non-null stroke cells
of player `pid` over `hs`; returns null when no cell is recorded. -/
def sumStrokes (pid : String) (hs : List RoundHole) : Option Int :=
  sumStrokesGo pid 0 false hs

/-- Loop body of `sumDiff` in RoundScorecard.tsx. -/
def sumDiffGo (pid : String) (total : Int) (a : Bool) :
    List RoundHole → Option Int
  | [] => if a then some total else none
  | h :: rest =>
    match jsGet h.strokes pid with
    | some v => sumDiffGo pid (total + (v - h.par)) true rest
    | none => sumDiffGo pid total a rest

/-- RoundScorecard.tsx `sumDiff(pid, hs)`: sums `strokes - par` over the
non-null stroke cells of `pid`; null when no cell is recorded. -/
def sumDiff (pid : String) (hs : List RoundHole) : Option Int :=
  sumDiffGo pid 0 false hs

/-- Loop body of `sumPutts` in RoundScorecard.tsx. -/
def sumPuttsGo (pid : String) (total : Int) (a : Bool) :
    List RoundHole → Option Int
  | [] => if a then some total else none
  | h :: rest =>
    match jsGet h.putts pid with
    | some v => sumPuttsGo pid (total + v) true rest
    | none => sumPuttsGo pid total a rest

/-- RoundScorecard.tsx `sumPutts(pid, hs)`. -/
def sumPutts (pid : String) (hs : List RoundHole) : Option Int :=
  sumPuttsGo pid 0 false hs

/-- scoreMarkClass.ts: classify a score against par. -/
def scoreMarkClass (strokes par : Int) : String :=
  let d := strokes - par
  if d ≤ -2 then "eagle"
  else if d = -1 then "birdie"
  else if d = 1 then "bogey"
  else if 2 ≤ d then "double-bogey"
  else ""

/-- An HTTP request issued by the client, identified by method and path. -/
inductive Request where
  | get (path : String)
  | post (path : String)
deriving DecidableEq, Repr

/-- RoundScorecard.tsx `isOwner`: `!!round && viewerId && round.owner_id === viewerId`
(with the round already loaded). -/
def isOwner (viewerId : String) (r : RoundState) : Bool :=
  (viewerId != "") && (r.ownerId == viewerId)

/-- RoundScorecard.tsx `tournamentLocked`:
`!!round?.tournament_completed_at || !!round?.tournament_paused_at`. -/
def tournamentLocked (r : RoundState) : Bool :=
  r.tournamentCompletedAt.isSome || r.tournamentPausedAt.isSome

/-- RoundScorecard.tsx `canEdit(pid)`:
`!round?.completed_at && !tournamentLocked && (pid === viewerId || isOwner)`. -/
def canEdit (viewerId : String) (r : RoundState) (pid : String) : Bool :=
  !r.completedAt.isSome && !tournamentLocked r && (pid == viewerId || isOwner viewerId r)

/-- RoundScorecard.tsx `isParticipant`:
`!!round && !!viewerId && round.player_ids.includes(viewerId)`. -/
def isParticipant (viewerId : String) (r : RoundState) : Bool :=
  (viewerId != "") && r.playerIds.contains viewerId

/-- RoundScorecard.tsx `readOnlyTournamentGroup`:
`!!round?.tournament_id && !isOwner && !isParticipant`. -/
def readOnlyTournamentGroup (viewerId : String) (r : RoundState) : Bool :=
  r.tournamentId.isSome && !isOwner viewerId r && !isParticipant viewerId r

/-- RoundScorecard.tsx `submitScore` on the success path of the HTTP calls,
modeled as the list of requests issued (in order) together with the active
hole number after the call.  The guard mirrors the early return
`if (!round || round.completed_at || tournamentLocked || readOnlyTournamentGroup) return;`.
When the guard passes, the client POSTs the score, re-fetches the round with
a GET, and only then advances the active hole to `holes[idx + 1]` where
`idx = holes.findIndex(h => h.number === holeNumber)` (no advance when that
slot does not exist). -/
def submitScore (viewerId : String) (r : RoundState)
    (activeHoleNumber holeNumber : Int) : List Request × Int :=
  if r.completedAt.isSome || tournamentLocked r || readOnlyTournamentGroup viewerId r then
    ([], activeHoleNumber)
  else
    let reqs := [Request.post ("/api/v1/rounds/" ++ toString r.id ++ "/scores"),
                 Request.get ("/api/v1/rounds/" ++ toString r.id)]
    let nextHole :=
      match r.holes.findIdx? (fun h => h.number == holeNumber) with
      | some i => r.holes[i + 1]?
      | none => none
    match nextHole with
    | some nh => (reqs, nh.number)
    | none => (reqs, activeHoleNumber)

/-- part_011 (Home) `startRound` success path: a single POST to `/api/v1/rounds`
whose response directly becomes the local round state (`setRound(created)`),
with no re-fetch. -/
def startRound (response : RoundState) : List Request × Option RoundState :=
  ([Request.post "/api/v1/rounds"], some response)

/-- The fields of the TS `Tournament` payload read by pause/resume
(part_020). -/
structure TournamentState where
  id : Int
  completedAt : Option String
  pausedAt : Option String
  pauseMessage : Option String
deriving DecidableEq, Repr

/-- part_020 `pauseTournament` on the success path: no request when the
tournament is already finished or paused, otherwise a POST to the pause
endpoint whose `response` becomes the new local tournament state. -/
def pauseTournament (t : TournamentState) (response : TournamentState) :
    List Request × TournamentState :=
  if t.completedAt.isSome || t.pausedAt.isSome then ([], t)
  else ([Request.post ("/api/v1/tournaments/" ++ toString t.id ++ "/pause")], response)

/-- part_020 `resumeTournament` on the success path: no request when the
tournament is finished or not paused, otherwise a POST to the resume
endpoint whose `response` becomes the new local tournament state. -/
def resumeTournament (t : TournamentState) (response : TournamentState) :
    List Request × TournamentState :=
  if t.completedAt.isSome || !t.pausedAt.isSome then ([], t)
  else ([Request.post ("/api/v1/tournaments/" ++ toString t.id ++ "/resume")], response)

/-- The two stat fields of `countDir` in RoundScorecard.tsx
(TS union `"fairway" | "gir"`). -/
inductive StatField where
  | fairway
  | gir
deriving DecidableEq, Repr

/-- The cell read by `countDir`:
`(field === "fairway" ? h.fairway?.[pid] : h.gir?.[pid]) ?? null`. -/
def fieldVal (field : StatField) (pid : String) (h : RoundHole) : Option String :=
  match field with
  | .fairway => jsGet h.fairway pid
  | .gir => jsGet h.gir pid

/-- Loop body of `countDir` in RoundScorecard.tsx, carrying the running
`hit` and `total` counters. -/
def countDirGo (pid : String) (field : StatField) (target : String)
    (hit total : Nat) : List RoundHole → Nat × Nat
  | [] => (hit, total)
  | h :: rest =>
    match fieldVal field pid h with
    | some v =>
      countDirGo pid field target (if v = target then hit + 1 else hit) (total + 1) rest
    | none => countDirGo pid field target hit total rest

/-- RoundScorecard.tsx `countDir(pid, hs, field, target)`. -/
def countDir (pid : String) (hs : List RoundHole) (field : StatField)
    (target : String) : Nat × Nat :=
  countDirGo pid field target 0 0 hs

/-- RoundScorecard.tsx `firPct`/`girPct`:
`total ? Math.round((hit / total) * 100) : null`, with the arithmetic modeled
exactly on rationals (`Math.round` rounds half toward positive infinity). -/
def jsRoundPct (hit total : Nat) : Option Nat :=
  if total = 0 then none else some ((200 * hit + total) / (2 * total))

/-- Stats panel percentage rendering:
`firPct != null ? firPct + "%" : "—"`. -/
def renderPct : Option Nat → String
  | none => "—"
  | some p => toString p ++ "%"

/-- RoundScorecard.tsx `fmtDiff(d)`. -/
def fmtDiff (d : Int) : String :=
  if d = 0 then "E" else if 0 < d then "+" ++ toString d else toString d

/-- Scorecard total-cell rendering (footer and back-nine "Tot" column):
`tot != null ? (totDiff != null ? tot + " (" + fmtDiff(totDiff) + ")" : tot) : "—"`. -/
def renderTotalCell (tot totDiff : Option Int) : String :=
  match tot with
  | none => "—"
  | some t =>
    match totDiff with
    | none => toString t
    | some d => toString t ++ " (" ++ fmtDiff d ++ ")"

/-- Stats panel putts rendering: `putts ?? "—"`; also the "Out"/"In" subtotal
rendering `out ?? "—"`. -/
def renderOptInt : Option Int → String
  | none => "—"
  | some n => toString n

/-- JS truthiness of a nullable string (`!!v`): false for null and for the
empty string. -/
def truthyStr : Option String → Bool
  | none => false
  | some s => s != ""

/-- The hole-view state of RoundScorecard.tsx: the loaded round, the viewer,
the active player and hole selections, and the draft stat entries. -/
structure ViewState where
  round : RoundState
  viewerId : String
  activePlayerId : String
  activeHoleNumber : Int
  draftStrokes : Option Int
  draftPutts : Option Int
  draftFairway : Option String
  draftGir : Option String
deriving DecidableEq, Repr

/-- RoundScorecard.tsx `activeHole`:
`holes.find(h => h.number === activeHoleNumber) ?? holes[0] ?? null`. -/
def activeHole (v : ViewState) : Option RoundHole :=
  match v.round.holes.find? (fun h => h.number == v.activeHoleNumber) with
  | some h => some h
  | none => v.round.holes.head?

/-- RoundScorecard.tsx `isActivePar3`: `activeHole?.par === 3`. -/
def isActivePar3 (v : ViewState) : Bool :=
  match activeHole v with
  | some h => h.par == 3
  | none => false

/-- RoundScorecard.tsx `activeSavedStrokes`:
`activeHole ? activeHole.strokes?.[activePlayerId] ?? null : null`. -/
def activeSavedStrokes (v : ViewState) : Option Int :=
  (activeHole v).bind (fun h => jsGet h.strokes v.activePlayerId)

/-- RoundScorecard.tsx `activeSavedPutts`. -/
def activeSavedPutts (v : ViewState) : Option Int :=
  (activeHole v).bind (fun h => jsGet h.putts v.activePlayerId)

/-- RoundScorecard.tsx `activeSavedFairway`. -/
def activeSavedFairway (v : ViewState) : Option String :=
  (activeHole v).bind (fun h => jsGet h.fairway v.activePlayerId)

/-- RoundScorecard.tsx `activeSavedGir`. -/
def activeSavedGir (v : ViewState) : Option String :=
  (activeHole v).bind (fun h => jsGet h.gir v.activePlayerId)

/-- RoundScorecard.tsx `activeSavedComplete`:
`strokes != null && (!statsEnabled || (putts != null && !!gir && (par3 || !!fairway)))`. -/
def activeSavedComplete (v : ViewState) : Bool :=
  (activeSavedStrokes v).isSome &&
    (!v.round.statsEnabled ||
      ((activeSavedPutts v).isSome && truthyStr (activeSavedGir v) &&
        (isActivePar3 v || truthyStr (activeSavedFairway v))))

/-- RoundScorecard.tsx `blockHoleAdvance`:
`!!(statsEnabled && canEdit(activePlayerId) && !activeSavedComplete)`. -/
def blockHoleAdvance (v : ViewState) : Bool :=
  v.round.statsEnabled && canEdit v.viewerId v.round v.activePlayerId &&
    !activeSavedComplete v

/-- JS `Array.findIndex` on the hole list: index of the first match, -1 when
there is none. -/
def jsFindIndex (p : RoundHole → Bool) (hs : List RoundHole) : Int :=
  match hs.findIdx? p with
  | some i => (i : Int)
  | none => -1

/-- Disabled condition of the hole-view "Next" button (RoundScorecard.tsx):
`holes.findIndex(h => h.number === activeHole.number) >= holes.length - 1 || !!blockHoleAdvance`;
present only when an active hole exists. -/
def nextDisabled (v : ViewState) : Option Bool :=
  (activeHole v).map (fun ah =>
    (decide ((v.round.holes.length : Int) - 1 ≤
      jsFindIndex (fun h => h.number == ah.number) v.round.holes)) || blockHoleAdvance v)

/-- Disabled condition of the stats "Save & Next" button (RoundScorecard.tsx):
`!canEdit(activePlayerId) || draftStrokes == null || draftPutts == null ||
(!isActivePar3 && !draftFairway) || !draftGir`. -/
def saveNextDisabled (v : ViewState) : Bool :=
  !canEdit v.viewerId v.round v.activePlayerId ||
    v.draftStrokes.isNone || v.draftPutts.isNone ||
    (!isActivePar3 v && !truthyStr v.draftFairway) ||
    !truthyStr v.draftGir

/-- The completeness condition named by the spec for a stats-enabled cell:
strokes, putts and GIR all recorded, and fairway also recorded unless the
hole is par 3. -/
def statCellComplete (par3 : Bool) (strokes putts : Option Int)
    (fairway gir : Option String) : Bool :=
  strokes.isSome && putts.isSome && truthyStr gir && (par3 || truthyStr fairway)

/-- Decimal digit character of a value 0..9. -/
def digitChar (d : Nat) : Char :=
  if d = 0 then '0' else if d = 1 then '1' else if d = 2 then '2'
  else if d = 3 then '3' else if d = 4 then '4' else if d = 5 then '5'
  else if d = 6 then '6' else if d = 7 then '7' else if d = 8 then '8' else '9'

/-- Numeric value of a decimal digit character. -/
def digitVal (c : Char) : Nat := c.toNat - 48

/-- Value of a most-significant-first digit string (the accumulation a
decimal numeral parse performs). -/
def digitsToNat (ds : List Char) : Nat :=
  ds.foldl (fun acc c => 10 * acc + digitVal c) 0

/-- Decimal digit characters of `n`, most significant first, by fuel
recursion (`fuel ≥ n` suffices since `n / 10 < n`). -/
def natToCharsAux : Nat → Nat → List Char
  | 0, _ => []
  | _ + 1, 0 => []
  | fuel + 1, n + 1 =>
    natToCharsAux fuel ((n + 1) / 10) ++ [digitChar ((n + 1) % 10)]

/-- Decimal rendering of a natural number (JS `String()` on a nonnegative
integer). -/
def natToChars (n : Nat) : List Char :=
  if n = 0 then ['0'] else natToCharsAux n n

/-- JS `String.prototype.trim` on char lists. -/
def jsTrim (s : List Char) : List Char :=
  ((s.dropWhile Char.isWhitespace).reverse.dropWhile Char.isWhitespace).reverse

/-- JS `s.replace("+", "")`: removes only the first '+'. -/
def replaceFirstPlus : List Char → List Char
  | [] => []
  | c :: rest => if c = '+' then rest else c :: replaceFirstPlus rest

/-- JS `s.startsWith("+")`. -/
def startsWithPlus : List Char → Bool
  | [] => false
  | c :: _ => c == '+'

/-- Every character is a decimal digit. -/
def allDigits (ds : List Char) : Bool := ds.all Char.isDigit

/-- JS `Math.abs` on the exact-rational model of JS numbers. -/
def jsAbs (q : ℚ) : ℚ := if q < 0 then -q else q

/-- Optional leading sign step of the `Number()` conversion. -/
def splitSign (s : List Char) : ℚ × List Char :=
  match s with
  | '-' :: rest => (-1, rest)
  | '+' :: rest => (1, rest)
  | _ => (1, s)

/-- Body of the `Number()` model after trimming, on a nonempty numeral:
optional sign, integer digits, optional '.' and fraction digits; anything
else (the NaN and infinite cases) is `none`. -/
def jsNumberBody (s : List Char) : Option ℚ :=
  match (splitSign s).2.dropWhile (fun c => c != '.') with
  | [] =>
    if (splitSign s).2 ≠ [] ∧ allDigits (splitSign s).2 = true then
      some ((splitSign s).1 * (digitsToNat (splitSign s).2 : ℚ))
    else none
  | c :: frac =>
    if c = '.' ∧ allDigits ((splitSign s).2.takeWhile (fun c => c != '.')) = true ∧
        allDigits frac = true ∧
        ((splitSign s).2.takeWhile (fun c => c != '.') ≠ [] ∨ frac ≠ []) then
      some ((splitSign s).1 *
        ((digitsToNat ((splitSign s).2.takeWhile (fun c => c != '.')) : ℚ) +
          (digitsToNat frac : ℚ) / (10 : ℚ) ^ frac.length))
    else none

/-- Model of the ECMAScript `Number(s)` conversion restricted to plain
decimal numerals (optional sign, digits, optional fraction), the only
shapes the handicap code ever produces: whitespace is trimmed, the empty
string is 0, and any other shape — the NaN and infinity cases, which the
caller discards through its `Number.isFinite` check — is `none`. -/
def jsNumber (s0 : List Char) : Option ℚ :=
  if jsTrim s0 = [] then some 0 else jsNumberBody (jsTrim s0)

/-- The exponent used to print a decimal rational: the least `j ≤ d` with
`d ∣ 10 ^ j` (one exists below this bound whenever the denominator divides
any power of ten). -/
def decExp (d : Nat) : Option Nat :=
  (List.range (d + 1)).find? (fun j => decide (d ∣ 10 ^ j))

/-- Left-pad a digit string with zeros to width `w`. -/
def padZeros (w : Nat) (ds : List Char) : List Char :=
  List.replicate (w - ds.length) '0' ++ ds

/-- Model of JS `String()` on the exact-rational model of a finite number:
sign, integer digits, and — when the denominator is not 1 — a '.' and the
exact decimal expansion of the fraction with the least number of digits
(the shortest-round-trip rendering in the plain decimal range).  For a
rational whose denominator divides no power of ten (not a JS number value)
the fallback prints only the integer digits. -/
def jsStringOfQ (q : ℚ) : List Char :=
  (if q < 0 then ['-'] else []) ++
    match decExp (jsAbs q).den with
    | none => natToChars (jsAbs q).num.toNat
    | some j =>
      if j = 0 then natToChars ((jsAbs q).num.toNat * (10 ^ j / (jsAbs q).den))
      else
        natToChars ((jsAbs q).num.toNat * (10 ^ j / (jsAbs q).den) / 10 ^ j) ++
          '.' :: padZeros j (natToChars
            ((jsAbs q).num.toNat * (10 ^ j / (jsAbs q).den) % 10 ^ j))

/-- part_011 `formatHandicapForInput` on char lists: null renders empty;
a negative stored handicap (a plus handicap) renders as '+' followed by its
absolute value; otherwise the plain rendering. -/
def formatHandicapChars (h : Option ℚ) : List Char :=
  match h with
  | none => []
  | some q => if q < 0 then '+' :: jsStringOfQ (jsAbs q) else jsStringOfQ q

/-- part_011 `parseHandicapFromInput` on char lists: trim; empty is null;
`Number` of the input with its first '+' removed, null when not finite; a
leading '+' stores the negated absolute value. -/
def parseHandicapChars (raw : List Char) : Option ℚ :=
  if jsTrim raw = [] then none
  else
    match jsNumber (replaceFirstPlus (jsTrim raw)) with
    | none => none
    | some v => some (if startsWithPlus (jsTrim raw) then -jsAbs v else v)

/-- part_011 `formatHandicapForInput` (string level). -/
def formatHandicapForInput (h : Option ℚ) : String :=
  String.mk (formatHandicapChars h)

/-- part_011 `parseHandicapFromInput` (string level). -/
def parseHandicapFromInput (raw : String) : Option ℚ :=
  parseHandicapChars raw.data

/-- JS `String.prototype.trim` at string level. -/
def jsTrimS (s : String) : String := String.mk (jsTrim s.data)

/-- A guest entry on the Home round-setup form: name and parsed handicap. -/
structure GuestEntry where
  name : String
  handicap : Option ℚ
deriving DecidableEq, Repr

/-- The Home-page (part_011) round-setup selection state read by the
add-player logic: the viewer, the selected friend ids, the manual id slots,
the guest entries, the guest form fields, and the error banner. -/
structure HomeState where
  viewerId : String
  friendPlayerIds : List String
  otherPlayerIds : List String
  guestPlayers : List GuestEntry
  guestName : String
  guestHandicap : String
  error : Option String
deriving DecidableEq, Repr

/-- part_011 `maxManualPlayerSlots()`:
`Math.max(0, 3 - guestPlayers.length - friendPlayerIds.length)`. -/
def maxManualPlayerSlots (s : HomeState) : Int :=
  max 0 (3 - (s.guestPlayers.length : Int) - (s.friendPlayerIds.length : Int))

/-- part_011 `selectedPlayersCount()`: the viewer plus the selected friends,
the filled manual slots (sliced to the slot limit), and the guests. -/
def selectedPlayersCount (s : HomeState) : Int :=
  1 + (s.friendPlayerIds.length : Int) +
    (((s.otherPlayerIds.take (maxManualPlayerSlots s).toNat).filter
      (fun x => jsTrimS x != "")).length : Int) +
    (s.guestPlayers.length : Int)

/-- part_011 `addFriendToRound(ref)`: no-op on a blank ref; error banners for
the viewer, a duplicate, or a full selection (the lists are unchanged in all
three cases); otherwise appends the friend id. -/
def addFriendToRound (s : HomeState) (ref : String) : HomeState :=
  if jsTrimS ref = "" then s
  else if jsTrimS ref = s.viewerId then
    { s with error := some "You are already in the round" }
  else if s.friendPlayerIds.contains (jsTrimS ref) ||
      s.otherPlayerIds.any (fun x => jsTrimS x == jsTrimS ref) then
    { s with error := some "Player already added" }
  else if 4 ≤ selectedPlayersCount s then
    { s with error := some "max 4 players" }
  else { s with friendPlayerIds := s.friendPlayerIds ++ [jsTrimS ref] }

/-- part_011 `addGuest()`: no-op on a blank guest name; error banner when the
selection is full (guest list unchanged); otherwise appends the guest with
the parsed handicap and clears the form fields. -/
def addGuest (s : HomeState) : HomeState :=
  if jsTrimS s.guestName = "" then s
  else if 4 ≤ selectedPlayersCount s then
    { s with error := some "max 4 players" }
  else
    { s with
      guestPlayers := s.guestPlayers ++
        [⟨jsTrimS s.guestName, parseHandicapFromInput s.guestHandicap⟩],
      guestName := "",
      guestHandicap := "" }

/-- The error taxonomy cases the spec assigns to participant addition. -/
inductive ApiError where
  | ConflictError
  | AuthorizationError
deriving DecidableEq, Repr

/-- Modelled from the spec: the backend handler of
`POST /rounds/{id}/participants` is not among the frontend sources.  Per the
spec, `addParticipant(playerRef)` is owner-only and allowed only while the
round is open, and "fails with ConflictError if already 4 players or the
player is already present"; the capacity conflict is raised regardless of
the acting player ("Adding a 5th participant to a Round always fails with
ConflictError regardless of the acting player"), so it is checked first. -/
def addParticipant (callerId : String) (r : RoundState) (pid : String) :
    Except ApiError RoundState :=
  if 4 ≤ r.playerIds.length then .error .ConflictError
  else if r.playerIds.contains pid then .error .ConflictError
  else if callerId ≠ r.ownerId then .error .AuthorizationError
  else if r.completedAt.isSome || tournamentLocked r then .error .ConflictError
  else .ok { r with playerIds := r.playerIds ++ [pid] }

/-- The scorecard add-player slot button (RoundScorecard.tsx):
`disabled={round.player_ids.length >= 4}`. -/
def addPlayerSlotDisabled (r : RoundState) : Bool :=
  decide (4 ≤ r.playerIds.length)

/-- The friend-picker Add button (RoundScorecard.tsx):
`disabled={!selectedFriend || round.player_ids.length >= 4}`. -/
def addFriendBtnDisabled (r : RoundState) (selectedFriend : String) : Bool :=
  (selectedFriend == "") || decide (4 ≤ r.playerIds.length)

/-- The player-search Add button (RoundScorecard.tsx):
`disabled={round.player_ids.includes(p.external_id) || round.player_ids.length >= 4}`. -/
def addSearchBtnDisabled (r : RoundState) (pid : String) : Bool :=
  r.playerIds.contains pid || decide (4 ≤ r.playerIds.length)

lemma sumStrokesGo_eq (pid : String) :
    ∀ (hs : List RoundHole) (total : Int) (a : Bool),
      sumStrokesGo pid total a hs =
        if (hs.filterMap (fun h => jsGet h.strokes pid)) = [] then
          (if a then some total else none)
        else some (total + (hs.filterMap (fun h => jsGet h.strokes pid)).sum) := by
  intro hs
  induction hs with
  | nil => intro total a; simp [sumStrokesGo]
  | cons h rest ih =>
    intro total a
    simp only [sumStrokesGo, List.filterMap_cons]
    cases hv : jsGet h.strokes pid with
    | none => dsimp only; simpa using ih total a
    | some v =>
      dsimp only
      rw [ih]
      by_cases he : rest.filterMap (fun h => jsGet h.strokes pid) = [] <;>
        simp [he, add_assoc]

lemma sumDiffGo_eq (pid : String) :
    ∀ (hs : List RoundHole) (total : Int) (a : Bool),
      sumDiffGo pid total a hs =
        if (hs.filterMap (fun h => (jsGet h.strokes pid).map (fun v => v - h.par))) = [] then
          (if a then some total else none)
        else some (total +
          ((hs.filterMap (fun h => (jsGet h.strokes pid).map (fun v => v - h.par))).sum)) := by
  intro hs
  induction hs with
  | nil => intro total a; simp [sumDiffGo]
  | cons h rest ih =>
    intro total a
    simp only [sumDiffGo, List.filterMap_cons]
    cases hv : jsGet h.strokes pid with
    | none => dsimp only; simpa using ih total a
    | some v =>
      dsimp only
      rw [ih]
      by_cases he :
          rest.filterMap (fun h => (jsGet h.strokes pid).map (fun v => v - h.par)) = [] <;>
        simp [he, add_assoc]

lemma sumPuttsGo_eq (pid : String) :
    ∀ (hs : List RoundHole) (total : Int) (a : Bool),
      sumPuttsGo pid total a hs =
        if (hs.filterMap (fun h => jsGet h.putts pid)) = [] then
          (if a then some total else none)
        else some (total + (hs.filterMap (fun h => jsGet h.putts pid)).sum) := by
  intro hs
  induction hs with
  | nil => intro total a; simp [sumPuttsGo]
  | cons h rest ih =>
    intro total a
    simp only [sumPuttsGo, List.filterMap_cons]
    cases hv : jsGet h.putts pid with
    | none => dsimp only; simpa using ih total a
    | some v =>
      dsimp only
      rw [ih]
      by_cases he : rest.filterMap (fun h => jsGet h.putts pid) = [] <;>
        simp [he, add_assoc]

/-- C1: for every player and every list of holes (in particular the front-9,
back-9, and full-18 sublists used by the scorecard), `sumStrokes` equals the
sum of exactly the recorded (non-null) stroke cells of that player, and is
null (never a fabricated 0) when no cell is recorded, so absent cells
contribute nothing and are not treated as zero. -/
theorem sumStrokes_eq_sum_of_recorded (pid : String) (hs : List RoundHole) :
    sumStrokes pid hs =
      (if (hs.filterMap (fun h => jsGet h.strokes pid)) = [] then none
       else some (hs.filterMap (fun h => jsGet h.strokes pid)).sum) ∧
    sumStrokes pid (front9 hs) =
      (if ((front9 hs).filterMap (fun h => jsGet h.strokes pid)) = [] then none
       else some ((front9 hs).filterMap (fun h => jsGet h.strokes pid)).sum) ∧
    sumStrokes pid (back9 hs) =
      (if ((back9 hs).filterMap (fun h => jsGet h.strokes pid)) = [] then none
       else some ((back9 hs).filterMap (fun h => jsGet h.strokes pid)).sum) := by
  refine ⟨?_, ?_, ?_⟩ <;>
    · rw [sumStrokes, sumStrokesGo_eq]
      split <;> simp

/-- C2: the score-to-par classification of `scoreMarkClass` is total and
exact: "eagle" iff the difference is at most -2, "birdie" iff it is -1,
blank (par) iff it is 0, "bogey" iff it is +1, and "double-bogey" iff it is
at least +2; these five classes are mutually exclusive and exhaustive. -/
theorem scoreMarkClass_classification (strokes par : Int) :
    (scoreMarkClass strokes par = "eagle" ↔ strokes - par ≤ -2) ∧
    (scoreMarkClass strokes par = "birdie" ↔ strokes - par = -1) ∧
    (scoreMarkClass strokes par = "" ↔ strokes - par = 0) ∧
    (scoreMarkClass strokes par = "bogey" ↔ strokes - par = 1) ∧
    (scoreMarkClass strokes par = "double-bogey" ↔ 2 ≤ strokes - par) := by
  simp only [scoreMarkClass]
  split_ifs <;>
    refine ⟨⟨fun hh => ?_, fun hh => ?_⟩, ⟨fun hh => ?_, fun hh => ?_⟩,
      ⟨fun hh => ?_, fun hh => ?_⟩, ⟨fun hh => ?_, fun hh => ?_⟩,
      ⟨fun hh => ?_, fun hh => ?_⟩⟩ <;>
    first
      | rfl
      | omega
      | exact absurd hh (by decide)

lemma countDirGo_eq (pid : String) (field : StatField) (target : String) :
    ∀ (hs : List RoundHole) (hit total : Nat),
      countDirGo pid field target hit total hs =
        (hit + ((hs.filterMap (fieldVal field pid)).filter (fun v => v = target)).length,
         total + (hs.filterMap (fieldVal field pid)).length) := by
  intro hs
  induction hs with
  | nil => intro hit total; simp [countDirGo]
  | cons h rest ih =>
    intro hit total
    simp only [countDirGo, List.filterMap_cons]
    cases hv : fieldVal field pid h with
    | none => dsimp only; simpa using ih hit total
    | some v =>
      dsimp only
      rw [ih]
      by_cases ht : v = target <;> simp [ht, List.filter_cons] <;> omega

/-- C6: for every player, hole list, stat field and target, `countDir`
returns exactly (number of recorded results equal to the target, number of
holes with a recorded result) — holes with no recorded result are excluded
from the denominator — and the percentage is absent (rendered "—") exactly
when the denominator is zero. -/
theorem countDir_and_pct_spec (pid : String) (hs : List RoundHole)
    (field : StatField) (target : String) (hit total : Nat) :
    (countDir pid hs field target).1 =
      ((hs.filterMap (fieldVal field pid)).filter (fun v => v = target)).length ∧
    (countDir pid hs field target).2 = (hs.filterMap (fieldVal field pid)).length ∧
    (jsRoundPct hit total = none ↔ total = 0) ∧
    renderPct none = "—" := by
  refine ⟨?_, ?_, ?_, rfl⟩
  · rw [countDir, countDirGo_eq]; simp
  · rw [countDir, countDirGo_eq]; simp
  · rw [jsRoundPct]
    split <;> simp_all

/-- C3: submitting to a completed or tournament-locked round, or as a
non-participant non-owner viewer of a tournament round, issues no request and
leaves the active hole unchanged; and `canEdit` permits score entry exactly
while the round is open (not completed, not tournament-locked) and the cell
is the viewer's own or the viewer is the round owner. -/
theorem submitScore_blocked_and_canEdit (viewerId : String) (r : RoundState)
    (activeHoleNumber holeNumber : Int) (pid : String) :
    ((r.completedAt.isSome = true ∨ tournamentLocked r = true ∨
        readOnlyTournamentGroup viewerId r = true) →
      submitScore viewerId r activeHoleNumber holeNumber = ([], activeHoleNumber)) ∧
    (canEdit viewerId r pid = true ↔
      (r.completedAt = none ∧ tournamentLocked r = false ∧
        (pid = viewerId ∨ isOwner viewerId r = true))) := by
  constructor
  · intro hblock
    rw [submitScore]
    rcases hblock with hb | hb | hb <;> simp [hb]
  · rw [canEdit]
    cases hc : r.completedAt <;> simp [hc, and_assoc]

/-- Witness for C3 at a concrete tournament-paused round. -/
theorem submitScore_blocked_and_canEdit_witness :
    submitScore "v" ⟨7, "o", ["v"], none, some 3, some "2024-01-01", none, [], false⟩ 1 1 =
      ([], 1) ∧
    canEdit "v" ⟨7, "o", ["v"], none, some 3, some "2024-01-01", none, [], false⟩ "v" = false := by
  have h := submitScore_blocked_and_canEdit "v"
    ⟨7, "o", ["v"], none, some 3, some "2024-01-01", none, [], false⟩ 1 1 "v"
  refine ⟨h.1 (Or.inr (Or.inl (by decide))), ?_⟩
  by_contra hc
  rw [Bool.not_eq_false] at hc
  have := (h.2.mp hc).2.1
  simp [tournamentLocked] at this

/-- C7: pausing an already paused or finished tournament, and resuming a
not-paused or finished tournament, issue no request and leave the local
tournament state unchanged. -/
theorem pause_resume_noop (t response : TournamentState) :
    ((t.pausedAt.isSome = true ∨ t.completedAt.isSome = true) →
      pauseTournament t response = ([], t)) ∧
    ((t.pausedAt = none ∨ t.completedAt.isSome = true) →
      resumeTournament t response = ([], t)) := by
  constructor
  · intro hb
    rw [pauseTournament]
    rcases hb with hb | hb <;> simp [hb]
  · intro hb
    rw [resumeTournament]
    rcases hb with hb | hb <;> simp [hb]

/-- Witness for C7 at a concrete paused tournament (pause is a no-op) and a
concrete active tournament (resume is a no-op). -/
theorem pause_resume_noop_witness :
    pauseTournament ⟨1, none, some "2024-01-01", some "rain delay"⟩ ⟨1, none, none, none⟩ =
      ([], ⟨1, none, some "2024-01-01", some "rain delay"⟩) ∧
    resumeTournament ⟨2, none, none, none⟩ ⟨2, none, some "x", none⟩ =
      ([], ⟨2, none, none, none⟩) := by
  exact ⟨(pause_resume_noop ⟨1, none, some "2024-01-01", some "rain delay"⟩
      ⟨1, none, none, none⟩).1 (Or.inl (by decide)),
    (pause_resume_noop ⟨2, none, none, none⟩ ⟨2, none, some "x", none⟩).2
      (Or.inl (by decide))⟩

/-- C8: on the success path of a score submission to an open round, the
client issues exactly the POST of the score followed by a GET re-fetch of
the round, and then the active hole advances to the hole immediately after
the submitted hole in the hole list — with no advance when the submitted
hole is the last; a round creation (`startRound`) instead issues a single
POST and seeds the local round state directly from the response, with no
re-fetch. -/
theorem submitScore_refetch_then_advance (viewerId : String) (r : RoundState)
    (activeHoleNumber holeNumber : Int) (i : Nat) (response : RoundState)
    (hopen : (r.completedAt.isSome || tournamentLocked r ||
      readOnlyTournamentGroup viewerId r) = false)
    (hidx : r.holes.findIdx? (fun h => h.number == holeNumber) = some i) :
    (submitScore viewerId r activeHoleNumber holeNumber).1 =
      [Request.post ("/api/v1/rounds/" ++ toString r.id ++ "/scores"),
       Request.get ("/api/v1/rounds/" ++ toString r.id)] ∧
    (∀ nh : RoundHole, r.holes[i + 1]? = some nh →
      (submitScore viewerId r activeHoleNumber holeNumber).2 = nh.number) ∧
    (r.holes[i + 1]? = none →
      (submitScore viewerId r activeHoleNumber holeNumber).2 = activeHoleNumber) ∧
    startRound response = ([Request.post "/api/v1/rounds"], some response) := by
  simp only [Bool.or_eq_false_iff] at hopen
  obtain ⟨⟨h1, h2⟩, h3⟩ := hopen
  refine ⟨?_, ?_, ?_, rfl⟩
  · rw [submitScore]
    simp only [h1, h2, h3, Bool.or_self, Bool.false_or, if_false, hidx]
    cases hnx : r.holes[i + 1]? <;> dsimp only <;> rfl
  · intro nh hnh
    rw [submitScore]
    simp only [h1, h2, h3, Bool.or_self, Bool.false_or, if_false, hidx, hnh]
    rfl
  · intro hnone
    rw [submitScore]
    simp only [h1, h2, h3, Bool.or_self, Bool.false_or, if_false, hidx, hnone]
    rfl

/-- Witness for C8 at a concrete open two-hole round: submitting hole 1
advances to hole 2, submitting hole 2 (the last) does not advance. -/
theorem submitScore_refetch_then_advance_witness :
    (submitScore "v" ⟨5, "v", ["v"], none, none, none, none,
        [⟨1, 4, [], [], [], []⟩, ⟨2, 3, [], [], [], []⟩], false⟩ 1 1).1 =
      [Request.post "/api/v1/rounds/5/scores", Request.get "/api/v1/rounds/5"] ∧
    (submitScore "v" ⟨5, "v", ["v"], none, none, none, none,
        [⟨1, 4, [], [], [], []⟩, ⟨2, 3, [], [], [], []⟩], false⟩ 1 1).2 = 2 ∧
    (submitScore "v" ⟨5, "v", ["v"], none, none, none, none,
        [⟨1, 4, [], [], [], []⟩, ⟨2, 3, [], [], [], []⟩], false⟩ 2 2).2 = 2 := by
  have h1 := submitScore_refetch_then_advance "v"
    ⟨5, "v", ["v"], none, none, none, none,
      [⟨1, 4, [], [], [], []⟩, ⟨2, 3, [], [], [], []⟩], false⟩ 1 1 0
    ⟨5, "v", ["v"], none, none, none, none, [], false⟩ (by decide) (by decide)
  have h2 := submitScore_refetch_then_advance "v"
    ⟨5, "v", ["v"], none, none, none, none,
      [⟨1, 4, [], [], [], []⟩, ⟨2, 3, [], [], [], []⟩], false⟩ 2 2 1
    ⟨5, "v", ["v"], none, none, none, none, [], false⟩ (by decide) (by decide)
  exact ⟨h1.1, h1.2.1 ⟨2, 3, [], [], [], []⟩ (by decide), h2.2.2.1 (by decide)⟩

/-- C10: for a player with no recorded value on any hole of the considered
list, `sumStrokes`, `sumDiff` and `sumPutts` all return null rather than 0,
and the scorecard renders the totals as "—" (never a numeric 0). -/
theorem empty_player_totals_render_dash (pid : String) (hs : List RoundHole)
    (hstrokes : ∀ h ∈ hs, jsGet h.strokes pid = none)
    (hputts : ∀ h ∈ hs, jsGet h.putts pid = none) :
    sumStrokes pid hs = none ∧ sumDiff pid hs = none ∧ sumPutts pid hs = none ∧
    renderTotalCell (sumStrokes pid hs) (sumDiff pid hs) = "—" ∧
    renderOptInt (sumStrokes pid hs) = "—" ∧
    renderOptInt (sumPutts pid hs) = "—" := by
  have h1 : sumStrokes pid hs = none := by
    rw [sumStrokes, sumStrokesGo_eq]
    simp [List.filterMap_eq_nil_iff.mpr hstrokes]
  have h2 : sumDiff pid hs = none := by
    rw [sumDiff, sumDiffGo_eq]
    have hall : ∀ h ∈ hs, (jsGet h.strokes pid).map (fun v => v - h.par) = none := by
      intro h hmem
      rw [hstrokes h hmem]
      rfl
    simp [List.filterMap_eq_nil_iff.mpr hall]
  have h3 : sumPutts pid hs = none := by
    rw [sumPutts, sumPuttsGo_eq]
    simp [List.filterMap_eq_nil_iff.mpr hputts]
  exact ⟨h1, h2, h3, by rw [h1]; rfl, by rw [h1]; rfl, by rw [h3]; rfl⟩

/-- Witness for C10: a two-hole round where player "B" has no recorded
cells (player "A" does). -/
theorem empty_player_totals_render_dash_witness :
    sumStrokes "B" [⟨1, 4, [("A", some 4)], [("A", some 2)], [], []⟩,
      ⟨2, 3, [("A", some 3), ("B", none)], [], [], []⟩] = none ∧
    renderTotalCell (sumStrokes "B" [⟨1, 4, [("A", some 4)], [("A", some 2)], [], []⟩,
      ⟨2, 3, [("A", some 3), ("B", none)], [], [], []⟩]) none = "—" := by
  have h := empty_player_totals_render_dash "B"
    [⟨1, 4, [("A", some 4)], [("A", some 2)], [], []⟩,
     ⟨2, 3, [("A", some 3), ("B", none)], [], [], []⟩]
    (by decide) (by decide)
  exact ⟨h.1, by rw [h.1]; rfl⟩

/-- C4: with stats enabled, the viewer able to edit the active player's cell,
and the active hole not the last, the hole-view "Next" button is disabled
exactly while the saved cell fails the completeness condition (strokes,
putts and GIR recorded; fairway too unless the hole is par 3), and the
stats "Save & Next" button is disabled exactly while the draft cell fails
the same condition. -/
theorem advance_blocked_until_cell_complete (v : ViewState) (ah : RoundHole)
    (hstats : v.round.statsEnabled = true)
    (hedit : canEdit v.viewerId v.round v.activePlayerId = true)
    (hah : activeHole v = some ah)
    (hnotlast : jsFindIndex (fun h => h.number == ah.number) v.round.holes <
      (v.round.holes.length : Int) - 1) :
    nextDisabled v = some (!statCellComplete (isActivePar3 v) (activeSavedStrokes v)
      (activeSavedPutts v) (activeSavedFairway v) (activeSavedGir v)) ∧
    saveNextDisabled v = !statCellComplete (isActivePar3 v) v.draftStrokes v.draftPutts
      v.draftFairway v.draftGir := by
  constructor
  · rw [nextDisabled, hah, Option.map_some']
    rw [blockHoleAdvance, activeSavedComplete, hstats, hedit, statCellComplete]
    have hlt : decide ((v.round.holes.length : Int) - 1 ≤
        jsFindIndex (fun h => h.number == ah.number) v.round.holes) = false := by
      simpa using not_le.mpr hnotlast
    rw [hlt]
    generalize (activeSavedStrokes v).isSome = b1
    generalize (activeSavedPutts v).isSome = b2
    generalize truthyStr (activeSavedGir v) = b3
    generalize isActivePar3 v = b4
    generalize truthyStr (activeSavedFairway v) = b5
    cases b1 <;> cases b2 <;> cases b3 <;> cases b4 <;> cases b5 <;> rfl
  · rw [saveNextDisabled, hedit, statCellComplete]
    generalize v.draftStrokes = o1
    generalize v.draftPutts = o2
    generalize isActivePar3 v = b3
    generalize truthyStr v.draftFairway = b4
    generalize truthyStr v.draftGir = b5
    cases o1 <;> cases o2 <;> cases b3 <;> cases b4 <;> cases b5 <;> rfl

/-- Witness for C4 at a concrete stats-enabled round: on hole 1 of 2 with no
saved cell the Next button is disabled, while a fully filled draft enables
Save & Next. -/
theorem advance_blocked_until_cell_complete_witness :
    nextDisabled ⟨⟨9, "v", ["v"], none, none, none, none,
        [⟨1, 4, [], [], [], []⟩, ⟨2, 3, [], [], [], []⟩], true⟩,
      "v", "v", 1, some 4, some 2, some "hit", some "hit"⟩ = some true ∧
    saveNextDisabled ⟨⟨9, "v", ["v"], none, none, none, none,
        [⟨1, 4, [], [], [], []⟩, ⟨2, 3, [], [], [], []⟩], true⟩,
      "v", "v", 1, some 4, some 2, some "hit", some "hit"⟩ = false := by
  have h := advance_blocked_until_cell_complete
    ⟨⟨9, "v", ["v"], none, none, none, none,
        [⟨1, 4, [], [], [], []⟩, ⟨2, 3, [], [], [], []⟩], true⟩,
      "v", "v", 1, some 4, some 2, some "hit", some "hit"⟩
    ⟨1, 4, [], [], [], []⟩ (by decide) (by decide) (by decide) (by decide)
  exact ⟨h.1.trans (by decide), h.2.trans (by decide)⟩

lemma digitChar_isDigit (d : Nat) : (digitChar d).isDigit = true := by
  unfold digitChar
  split_ifs <;> decide

lemma digitVal_digitChar (d : Nat) (hd : d < 10) : digitVal (digitChar d) = d := by
  unfold digitChar
  split_ifs with h0 h1 h2 h3 h4 h5 h6 h7 h8 <;>
    first
      | (subst h0; decide) | (subst h1; decide) | (subst h2; decide)
      | (subst h3; decide) | (subst h4; decide) | (subst h5; decide)
      | (subst h6; decide) | (subst h7; decide) | (subst h8; decide)
      | (have h9 : d = 9 := by omega
         subst h9
         decide)

lemma isDigit_not_ws (c : Char) (h : c.isDigit = true) : c.isWhitespace = false := by
  by_contra hw
  rw [Bool.not_eq_false] at hw
  simp [Char.isWhitespace] at hw
  rcases hw with ((h1 | h1) | h1) | h1 <;> subst h1 <;> exact absurd h (by decide)

lemma isDigit_ne_plus (c : Char) (h : c.isDigit = true) : c ≠ '+' := by
  intro hc; subst hc; exact absurd h (by decide)

lemma isDigit_bne_dot (c : Char) (h : c.isDigit = true) : (c != '.') = true := by
  rw [bne_iff_ne]
  intro hc; subst hc; exact absurd h (by decide)

lemma digitsToNat_append (xs : List Char) (c : Char) :
    digitsToNat (xs ++ [c]) = 10 * digitsToNat xs + digitVal c := by
  simp [digitsToNat, List.foldl_append]

lemma natToCharsAux_spec :
    ∀ (fuel n : Nat), n ≤ fuel →
      digitsToNat (natToCharsAux fuel n) = n ∧
      (∀ c ∈ natToCharsAux fuel n, c.isDigit = true) ∧
      (n ≠ 0 → natToCharsAux fuel n ≠ []) ∧
      (∀ w, n < 10 ^ w → (natToCharsAux fuel n).length ≤ w) := by
  intro fuel
  induction fuel with
  | zero =>
    intro n hn
    have : n = 0 := by omega
    subst this
    exact ⟨by simp [natToCharsAux, digitsToNat], by simp [natToCharsAux],
      by simp, by simp [natToCharsAux]⟩
  | succ fuel ih =>
    intro n hn
    match n with
    | 0 =>
      exact ⟨by simp [natToCharsAux, digitsToNat], by simp [natToCharsAux],
        by simp, by simp [natToCharsAux]⟩
    | m + 1 =>
      have hdivle : (m + 1) / 10 ≤ fuel := by omega
      obtain ⟨ihv, ihd, ihn, ihl⟩ := ih ((m + 1) / 10) hdivle
      have heq : natToCharsAux (fuel + 1) (m + 1) =
          natToCharsAux fuel ((m + 1) / 10) ++ [digitChar ((m + 1) % 10)] := rfl
      refine ⟨?_, ?_, ?_, ?_⟩
      · rw [heq, digitsToNat_append, ihv,
          digitVal_digitChar ((m + 1) % 10) (by omega)]
        omega
      · rw [heq]
        intro c hc
        rcases List.mem_append.mp hc with hc | hc
        · exact ihd c hc
        · rw [List.mem_singleton.mp hc]
          exact digitChar_isDigit _
      · intro _
        rw [heq]
        simp
      · intro w hw
        match w with
        | 0 => omega
        | w + 1 =>
          have hlt : (m + 1) / 10 < 10 ^ w := by
            rw [Nat.div_lt_iff_lt_mul (by norm_num : 0 < 10)]
            calc m + 1 < 10 ^ (w + 1) := hw
            _ = 10 ^ w * 10 := by rw [pow_succ]
          have := ihl w hlt
          rw [heq]
          simp only [List.length_append, List.length_singleton]
          omega

lemma natToChars_val (n : Nat) : digitsToNat (natToChars n) = n := by
  rw [natToChars]
  split
  · rename_i h; rw [h]; decide
  · exact (natToCharsAux_spec n n le_rfl).1

lemma natToChars_digits (n : Nat) : ∀ c ∈ natToChars n, c.isDigit = true := by
  rw [natToChars]
  split
  · intro c hc; rw [List.mem_singleton.mp hc]; decide
  · exact (natToCharsAux_spec n n le_rfl).2.1

lemma natToChars_ne_nil (n : Nat) : natToChars n ≠ [] := by
  rw [natToChars]
  split
  · simp
  · rename_i h; exact (natToCharsAux_spec n n le_rfl).2.2.1 h

lemma natToChars_length_le (n w : Nat) (hw : n < 10 ^ w) (h1 : 1 ≤ w) :
    (natToChars n).length ≤ w := by
  rw [natToChars]
  split
  · simpa using h1
  · exact (natToCharsAux_spec n n le_rfl).2.2.2 w hw

lemma dropWhile_eq_self_of_all {p : Char → Bool} (s : List Char)
    (h : ∀ c ∈ s, p c = false) : s.dropWhile p = s := by
  cases s with
  | nil => rfl
  | cons c cs =>
    rw [List.dropWhile_cons, h c (by simp)]
    simp

lemma jsTrim_eq_self (s : List Char) (h : ∀ c ∈ s, c.isWhitespace = false) :
    jsTrim s = s := by
  rw [jsTrim, dropWhile_eq_self_of_all s h,
    dropWhile_eq_self_of_all s.reverse (fun c hc => h c (List.mem_reverse.mp hc)),
    List.reverse_reverse]

lemma replaceFirstPlus_eq_self (s : List Char) (h : ∀ c ∈ s, c ≠ '+') :
    replaceFirstPlus s = s := by
  induction s with
  | nil => rfl
  | cons c cs ih =>
    rw [replaceFirstPlus, if_neg (h c (by simp))]
    rw [ih (fun x hx => h x (by simp [hx]))]

lemma splitSign_of_digit (c : Char) (cs : List Char) (h : c.isDigit = true) :
    splitSign (c :: cs) = (1, c :: cs) := by
  unfold splitSign
  split
  · rename_i heq
    injection heq with h1 h2
    subst h1
    exact absurd h (by decide)
  · rename_i heq
    injection heq with h1 h2
    subst h1
    exact absurd h (by decide)
  · rfl

lemma takeWhile_digits_dot (xs ys : List Char) (h : ∀ c ∈ xs, c.isDigit = true) :
    (xs ++ '.' :: ys).takeWhile (fun c => c != '.') = xs := by
  induction xs with
  | nil => simp [List.takeWhile_cons]
  | cons c cs ih =>
    rw [List.cons_append, List.takeWhile_cons, isDigit_bne_dot c (h c (by simp))]
    rw [ih (fun x hx => h x (by simp [hx]))]
    simp

lemma dropWhile_digits_dot (xs ys : List Char) (h : ∀ c ∈ xs, c.isDigit = true) :
    (xs ++ '.' :: ys).dropWhile (fun c => c != '.') = '.' :: ys := by
  induction xs with
  | nil => simp [List.dropWhile_cons]
  | cons c cs ih =>
    rw [List.cons_append, List.dropWhile_cons, isDigit_bne_dot c (h c (by simp))]
    exact ih (fun x hx => h x (by simp [hx]))

lemma digitsToNat_padZeros (w : Nat) (ds : List Char) :
    digitsToNat (padZeros w ds) = digitsToNat ds := by
  rw [padZeros, digitsToNat, digitsToNat, List.foldl_append]
  have : ∀ m, (List.replicate m '0').foldl (fun acc c => 10 * acc + digitVal c) 0 = 0 := by
    intro m
    induction m with
    | zero => rfl
    | succ m ihm => simpa [List.replicate_succ, digitVal] using ihm
  rw [this]

lemma padZeros_length (w : Nat) (ds : List Char) (h : ds.length ≤ w) :
    (padZeros w ds).length = w := by
  rw [padZeros]
  simp only [List.length_append, List.length_replicate]
  omega

lemma padZeros_digits (w : Nat) (ds : List Char) (h : ∀ c ∈ ds, c.isDigit = true) :
    ∀ c ∈ padZeros w ds, c.isDigit = true := by
  intro c hc
  rcases List.mem_append.mp hc with hc | hc
  · rw [List.eq_of_mem_replicate hc]; decide
  · exact h c hc

lemma jsNumber_digits (ds : List Char) (hne : ds ≠ [])
    (hd : ∀ c ∈ ds, c.isDigit = true) :
    jsNumber ds = some (digitsToNat ds : ℚ) := by
  have htrim : jsTrim ds = ds :=
    jsTrim_eq_self ds (fun c hc => isDigit_not_ws c (hd c hc))
  have hsign : splitSign ds = (1, ds) := by
    obtain ⟨c, cs, rfl⟩ := List.exists_cons_of_ne_nil hne
    exact splitSign_of_digit c cs (hd c (by simp))
  have hdot : ds.dropWhile (fun c => c != '.') = [] :=
    List.dropWhile_eq_nil_iff.mpr (fun x hx => isDigit_bne_dot x (hd x hx))
  have hall : allDigits ds = true := List.all_eq_true.mpr (fun x hx => hd x hx)
  rw [jsNumber, htrim, if_neg hne, jsNumberBody, hsign]
  dsimp only
  rw [hdot]
  rw [if_pos ⟨hne, hall⟩, one_mul]

lemma jsNumber_digits_dot (xs ys : List Char) (hxne : xs ≠ [])
    (hx : ∀ c ∈ xs, c.isDigit = true) (hy : ∀ c ∈ ys, c.isDigit = true) :
    jsNumber (xs ++ '.' :: ys) =
      some ((digitsToNat xs : ℚ) + (digitsToNat ys : ℚ) / (10 : ℚ) ^ ys.length) := by
  have hws : ∀ c ∈ xs ++ '.' :: ys, c.isWhitespace = false := by
    intro c hc
    rcases List.mem_append.mp hc with hc | hc
    · exact isDigit_not_ws c (hx c hc)
    · rcases List.mem_cons.mp hc with hc | hc
      · subst hc; decide
      · exact isDigit_not_ws c (hy c hc)
  have htrim := jsTrim_eq_self _ hws
  have hne : xs ++ '.' :: ys ≠ [] := by simp
  have hsign : splitSign (xs ++ '.' :: ys) = (1, xs ++ '.' :: ys) := by
    obtain ⟨c, cs, heq⟩ := List.exists_cons_of_ne_nil hxne
    rw [heq, List.cons_append]
    refine splitSign_of_digit c _ (hx c ?_)
    rw [heq]
    simp
  have hdrop := dropWhile_digits_dot xs ys hx
  have htake := takeWhile_digits_dot xs ys hx
  have hallx : allDigits xs = true := List.all_eq_true.mpr hx
  have hally : allDigits ys = true := List.all_eq_true.mpr hy
  rw [jsNumber, htrim, if_neg hne, jsNumberBody, hsign]
  dsimp only
  rw [hdrop]
  dsimp only
  rw [htake]
  rw [if_pos ⟨rfl, hallx, hally, Or.inl hxne⟩, one_mul]

lemma dvd_ten_pow_self (d k : Nat) (hd : d ≠ 0) (h : d ∣ 10 ^ k) :
    d ∣ 10 ^ d := by
  have h10k : (10 : ℕ) ^ k ≠ 0 := pow_ne_zero _ (by norm_num)
  have h10d : (10 : ℕ) ^ d ≠ 0 := pow_ne_zero _ (by norm_num)
  rw [← Nat.factorization_le_iff_dvd hd h10k] at h
  rw [← Nat.factorization_le_iff_dvd hd h10d]
  rw [Finsupp.le_def] at h ⊢
  intro p
  have hp := h p
  rw [Nat.factorization_pow] at hp ⊢
  simp only [Finsupp.smul_apply, smul_eq_mul] at hp ⊢
  by_cases hz : (Nat.factorization 10) p = 0
  · rw [hz] at hp ⊢
    simpa using hp
  · have h1 : 1 ≤ (Nat.factorization 10) p := Nat.one_le_iff_ne_zero.mpr hz
    have h2 : (Nat.factorization d) p < d := Nat.factorization_lt p hd
    calc (Nat.factorization d) p ≤ d * 1 := by omega
    _ ≤ d * (Nat.factorization 10) p := Nat.mul_le_mul_left d h1

lemma decExp_spec (d k : Nat) (hd : d ≠ 0) (h : d ∣ 10 ^ k) :
    ∃ j, decExp d = some j ∧ d ∣ 10 ^ j := by
  have hdd : d ∣ 10 ^ d := dvd_ten_pow_self d k hd h
  have hex : ∃ x ∈ List.range (d + 1), decide (d ∣ 10 ^ x) = true :=
    ⟨d, List.mem_range.mpr (by omega), by simpa using hdd⟩
  have hsome := List.find?_isSome.mpr hex
  rw [decExp]
  obtain ⟨j, hj⟩ := Option.isSome_iff_exists.mp hsome
  exact ⟨j, hj, by simpa using List.find?_some hj⟩

lemma jsAbs_of_nonneg (q : ℚ) (hq : 0 ≤ q) : jsAbs q = q := by
  rw [jsAbs, if_neg (not_lt.mpr hq)]

lemma jsAbs_of_neg (q : ℚ) (hq : q < 0) : jsAbs q = -q := by
  rw [jsAbs, if_pos hq]

lemma jsNumber_jsStringOfQ (q : ℚ) (hq : 0 ≤ q) (k : Nat) (hk : q.den ∣ 10 ^ k) :
    jsNumber (jsStringOfQ q) = some q ∧
    (∀ c ∈ jsStringOfQ q, c.isDigit = true ∨ c = '.') ∧
    jsStringOfQ q ≠ [] := by
  have hden : q.den ≠ 0 := (Rat.den_pos q).ne'
  obtain ⟨j, hje, hjd⟩ := decExp_spec q.den k hden hk
  have habs : jsAbs q = q := jsAbs_of_nonneg q hq
  have hnumnn : (0 : Int) ≤ q.num := Rat.num_nonneg.mpr hq
  have hkey : ((q.num.toNat * (10 ^ j / q.den) : ℕ) : ℚ) = q * 10 ^ j := by
    have h1 : ((10 ^ j / q.den : ℕ) : ℚ) = (10 ^ j : ℚ) / (q.den : ℚ) := by
      rw [Nat.cast_div hjd (by exact_mod_cast hden)]
      push_cast
      ring
    have h2 : ((q.num.toNat : ℕ) : ℚ) = (q.num : ℚ) := by
      exact_mod_cast congrArg (fun z : ℤ => (z : ℚ)) (Int.toNat_of_nonneg hnumnn)
    rw [Nat.cast_mul, h1, h2]
    conv_rhs => rw [← Rat.num_div_den q]
    have hdq : ((q.den : ℕ) : ℚ) ≠ 0 := by exact_mod_cast hden
    field_simp
  rw [jsStringOfQ, habs, hje]
  rw [if_neg (not_lt.mpr hq), List.nil_append]
  dsimp only
  by_cases hj0 : j = 0
  · subst hj0
    rw [if_pos rfl]
    refine ⟨?_, ?_, natToChars_ne_nil _⟩
    · rw [jsNumber_digits _ (natToChars_ne_nil _) (natToChars_digits _),
        natToChars_val]
      rw [hkey]
      norm_num
    · intro c hc
      exact Or.inl (natToChars_digits _ c hc)
  · rw [if_neg hj0]
    have hpow_pos : 0 < (10 : ℕ) ^ j := pow_pos (by norm_num) j
    have hmodlt : (q.num.toNat * (10 ^ j / q.den)) % 10 ^ j < 10 ^ j :=
      Nat.mod_lt _ hpow_pos
    have hlen : (padZeros j (natToChars
        ((q.num.toNat * (10 ^ j / q.den)) % 10 ^ j))).length = j :=
      padZeros_length _ _ (natToChars_length_le _ _ hmodlt (by omega))
    have hysd : ∀ c ∈ padZeros j (natToChars
        ((q.num.toNat * (10 ^ j / q.den)) % 10 ^ j)), c.isDigit = true :=
      padZeros_digits _ _ (natToChars_digits _)
    refine ⟨?_, ?_, by simp [natToChars_ne_nil]⟩
    · rw [jsNumber_digits_dot _ _ (natToChars_ne_nil _) (natToChars_digits _) hysd]
      rw [hlen, natToChars_val, digitsToNat_padZeros, natToChars_val]
      have hpow_ne : ((10 : ℚ) ^ j) ≠ 0 := by positivity
      have hdm : (10 : ℕ) ^ j * ((q.num.toNat * (10 ^ j / q.den)) / 10 ^ j) +
          (q.num.toNat * (10 ^ j / q.den)) % 10 ^ j =
          q.num.toNat * (10 ^ j / q.den) := Nat.div_add_mod _ _
      have hsum : (((q.num.toNat * (10 ^ j / q.den)) / 10 ^ j : ℕ) : ℚ) * (10 : ℚ) ^ j +
          (((q.num.toNat * (10 ^ j / q.den)) % 10 ^ j : ℕ) : ℚ) =
          ((q.num.toNat * (10 ^ j / q.den) : ℕ) : ℚ) := by
        rw [mul_comm] at hdm
        exact_mod_cast congrArg (fun m : ℕ => (m : ℚ)) hdm
      refine congrArg some ?_
      rw [show ((((q.num.toNat * (10 ^ j / q.den)) / 10 ^ j : ℕ) : ℚ) +
          (((q.num.toNat * (10 ^ j / q.den)) % 10 ^ j : ℕ) : ℚ) / (10 : ℚ) ^ j) =
          ((((q.num.toNat * (10 ^ j / q.den)) / 10 ^ j : ℕ) : ℚ) * (10 : ℚ) ^ j +
            (((q.num.toNat * (10 ^ j / q.den)) % 10 ^ j : ℕ) : ℚ)) / (10 : ℚ) ^ j
          from by field_simp]
      rw [hsum, hkey, mul_div_cancel_right₀ q hpow_ne]
    · intro c hc
      rcases List.mem_append.mp hc with hc | hc
      · exact Or.inl (natToChars_digits _ c hc)
      · rcases List.mem_cons.mp hc with hc | hc
        · exact Or.inr hc
        · exact Or.inl (hysd c hc)

/-- C9: the handicap input rendering and parsing are mutually inverse on
stored values: for every finite JS number value (a rational whose
denominator divides a power of ten), parsing the rendering returns the same
number — a plus handicap, stored as a negative number, is rendered with a
leading '+' and parses back to the stored negative value — and a null
handicap renders as the empty string, which parses back to null. -/
theorem handicap_format_parse_roundtrip (q : ℚ) (k : Nat) (hk : q.den ∣ 10 ^ k) :
    parseHandicapFromInput (formatHandicapForInput (some q)) = some q ∧
    parseHandicapFromInput (formatHandicapForInput none) = none := by
  refine ⟨?_, rfl⟩
  show parseHandicapChars (formatHandicapChars (some q)) = some q
  by_cases hneg : q < 0
  · have hp : (0 : ℚ) ≤ -q := by linarith
    have hkp : (-q).den ∣ 10 ^ k := by rw [Rat.neg_den]; exact hk
    obtain ⟨hjs, hchars, hne⟩ := jsNumber_jsStringOfQ (-q) hp k hkp
    have hfmt : formatHandicapChars (some q) = '+' :: jsStringOfQ (-q) := by
      rw [formatHandicapChars]
      rw [if_pos hneg, jsAbs_of_neg q hneg]
    rw [hfmt]
    have hws : ∀ c ∈ '+' :: jsStringOfQ (-q), c.isWhitespace = false := by
      intro c hc
      rcases List.mem_cons.mp hc with hc | hc
      · subst hc; decide
      · rcases hchars c hc with h | h
        · exact isDigit_not_ws c h
        · subst h; decide
    have htrim := jsTrim_eq_self _ hws
    rw [parseHandicapChars, htrim]
    rw [if_neg (by simp : ¬('+' :: jsStringOfQ (-q) = []))]
    rw [show replaceFirstPlus ('+' :: jsStringOfQ (-q)) = jsStringOfQ (-q) from by
      rw [replaceFirstPlus, if_pos rfl]]
    rw [hjs]
    dsimp only
    simp [startsWithPlus, jsAbs_of_nonneg (-q) hp]
  · have hq : (0 : ℚ) ≤ q := not_lt.mp hneg
    obtain ⟨hjs, hchars, hne⟩ := jsNumber_jsStringOfQ q hq k hk
    have hfmt : formatHandicapChars (some q) = jsStringOfQ q := by
      rw [formatHandicapChars]
      rw [if_neg hneg]
    rw [hfmt]
    have hws : ∀ c ∈ jsStringOfQ q, c.isWhitespace = false := by
      intro c hc
      rcases hchars c hc with h | h
      · exact isDigit_not_ws c h
      · subst h; decide
    have htrim := jsTrim_eq_self _ hws
    have hnoplus : ∀ c ∈ jsStringOfQ q, c ≠ '+' := by
      intro c hc
      rcases hchars c hc with h | h
      · exact isDigit_ne_plus c h
      · subst h; decide
    rw [parseHandicapChars, htrim, if_neg hne,
      replaceFirstPlus_eq_self _ hnoplus, hjs]
    dsimp only
    have hsw : startsWithPlus (jsStringOfQ q) = false := by
      obtain ⟨c, cs, heq⟩ := List.exists_cons_of_ne_nil hne
      rw [heq]
      simp only [startsWithPlus]
      refine beq_eq_false_iff_ne.mpr (hnoplus c ?_)
      rw [heq]
      exact List.mem_cons_self c cs
    rw [hsw]
    simp

/-- Witness for C9 at the stored plus-handicap -1/10 (den 10 divides 10^1):
it renders as "+0.1" and parses back, and null renders as "" and parses to
null. -/
theorem handicap_format_parse_roundtrip_witness :
    parseHandicapFromInput (formatHandicapForInput
      (some (⟨-1, 10, by norm_num, by norm_num⟩ : ℚ))) =
      some (⟨-1, 10, by norm_num, by norm_num⟩ : ℚ) ∧
    parseHandicapFromInput (formatHandicapForInput none) = none ∧
    formatHandicapForInput (some (⟨-1, 10, by norm_num, by norm_num⟩ : ℚ)) = "+0.1" ∧
    formatHandicapForInput none = "" := by
  have h := handicap_format_parse_roundtrip
    (⟨-1, 10, by norm_num, by norm_num⟩ : ℚ) 1 (by decide)
  exact ⟨h.1, h.2, by decide, rfl⟩

/-- C5: with 4 players already selected or present, a 5th participant is
rejected everywhere: the (spec-modelled) backend `addParticipant` fails with
ConflictError regardless of the acting player, the client `addFriendToRound`
and `addGuest` set the error "max 4 players" and change nothing but the
error banner (in particular the selected-player lists are unchanged), and
all scorecard add-player controls are disabled. -/
theorem fifth_participant_rejected (s : HomeState) (ref : String)
    (r : RoundState) (callerId pid selectedFriend : String)
    (hfull : 4 ≤ selectedPlayersCount s)
    (hr4 : r.playerIds.length = 4)
    (href : jsTrimS ref ≠ "")
    (hrefv : jsTrimS ref ≠ s.viewerId)
    (hdup : (s.friendPlayerIds.contains (jsTrimS ref) ||
      s.otherPlayerIds.any (fun x => jsTrimS x == jsTrimS ref)) = false)
    (hname : jsTrimS s.guestName ≠ "") :
    addParticipant callerId r pid = Except.error ApiError.ConflictError ∧
    addFriendToRound s ref = { s with error := some "max 4 players" } ∧
    addGuest s = { s with error := some "max 4 players" } ∧
    addPlayerSlotDisabled r = true ∧
    addFriendBtnDisabled r selectedFriend = true ∧
    addSearchBtnDisabled r pid = true := by
  refine ⟨?_, ?_, ?_, ?_, ?_, ?_⟩
  · rw [addParticipant, if_pos (by omega)]
  · rw [addFriendToRound, if_neg href, if_neg hrefv]
    rw [if_neg (by rw [hdup]; simp)]
    rw [if_pos hfull]
  · rw [addGuest, if_neg hname, if_pos hfull]
  · rw [addPlayerSlotDisabled]
    simp [hr4]
  · rw [addFriendBtnDisabled]
    simp [hr4]
  · rw [addSearchBtnDisabled]
    simp [hr4]

/-- Witness for C5: a selection already holding the viewer plus three
friends, and a loaded round with four players. -/
theorem fifth_participant_rejected_witness :
    addParticipant "x" ⟨3, "o", ["o", "a", "b", "c"], none, none, none, none, [], false⟩
      "d" = Except.error ApiError.ConflictError ∧
    addFriendToRound ⟨"v", ["a", "b", "c"], [], [], "G", "", none⟩ "d" =
      ⟨"v", ["a", "b", "c"], [], [], "G", "", some "max 4 players"⟩ ∧
    addGuest ⟨"v", ["a", "b", "c"], [], [], "G", "", none⟩ =
      ⟨"v", ["a", "b", "c"], [], [], "G", "", some "max 4 players"⟩ := by
  have h := fifth_participant_rejected ⟨"v", ["a", "b", "c"], [], [], "G", "", none⟩
    "d" ⟨3, "o", ["o", "a", "b", "c"], none, none, none, none, [], false⟩
    "x" "d" "" (by decide) (by decide) (by decide) (by decide) (by decide) (by decide)
  exact ⟨h.1, h.2.1, h.2.2.1⟩

end GolfApp
